import Mathlib

/-!
Shallow embedding of the vib3 4D rotor math core (src/cpp/math): the
Vec4, Mat4x4 and Rotor4D value types and the operations the spec's
claims are about.  Floating-point arithmetic is modelled over the real
numbers; every definition follows the corresponding C++ function in
Vec4.cpp, Mat4x4.cpp and Rotor4D.cpp line by line.
-/

noncomputable section

namespace Vib3

/-- 4D vector, fields x y z w as in Vec4.hpp. -/
structure Vec4 where
  x : ℝ
  y : ℝ
  z : ℝ
  w : ℝ

namespace Vec4

/-- Vec4::zero(). -/
def zero : Vec4 := ⟨0, 0, 0, 0⟩

/-- Vec4::dot. -/
def dot (a b : Vec4) : ℝ := a.x * b.x + a.y * b.y + a.z * b.z + a.w * b.w

/-- Vec4::lengthSquared = dot(self, self). -/
def lengthSquared (v : Vec4) : ℝ := v.dot v

/-- Vec4::length = sqrt(lengthSquared). -/
def length (v : Vec4) : ℝ := Real.sqrt v.lengthSquared

/-- Vec4::normalized: divide by length when length > 0, else the zero vector. -/
def normalized (v : Vec4) : Vec4 :=
  if 0 < v.length then ⟨v.x / v.length, v.y / v.length, v.z / v.length, v.w / v.length⟩
  else zero

/-- Vec4::min, component-wise. -/
def vmin (a b : Vec4) : Vec4 := ⟨min a.x b.x, min a.y b.y, min a.z b.z, min a.w b.w⟩

/-- Vec4::max, component-wise. -/
def vmax (a b : Vec4) : Vec4 := ⟨max a.x b.x, max a.y b.y, max a.z b.z, max a.w b.w⟩

/-- Vec4::clamp(minVal, maxVal) = this->max(minVal).min(maxVal)  (Vec4.cpp line 242). -/
def clamp (v minVal maxVal : Vec4) : Vec4 := (v.vmax minVal).vmin maxVal

end Vec4

/-- 4x4 matrix; field aRC is the element at(R, C) (row R, column C) of
Mat4x4.  The C++ stores the sixteen elements column-major
(data[c*4+r]); all operations below only access elements through
at(row, col), so the matrix is embedded by that access function. -/
structure Mat4x4 where
  a00 : ℝ
  a01 : ℝ
  a02 : ℝ
  a03 : ℝ
  a10 : ℝ
  a11 : ℝ
  a12 : ℝ
  a13 : ℝ
  a20 : ℝ
  a21 : ℝ
  a22 : ℝ
  a23 : ℝ
  a30 : ℝ
  a31 : ℝ
  a32 : ℝ
  a33 : ℝ

namespace Mat4x4

/-- Mat4x4::identity() = Mat4x4(1.0f): diagonal 1. -/
def identity : Mat4x4 := ⟨1,0,0,0, 0,1,0,0, 0,0,1,0, 0,0,0,1⟩

/-- Mat4x4::zero(): all elements 0. -/
def zero : Mat4x4 := ⟨0,0,0,0, 0,0,0,0, 0,0,0,0, 0,0,0,0⟩

/-- Mat4x4::rotationXY(angle). -/
def rotationXY (angle : ℝ) : Mat4x4 :=
  let c := Real.cos angle
  let s := Real.sin angle
  ⟨c, -s, 0, 0,  s, c, 0, 0,  0, 0, 1, 0,  0, 0, 0, 1⟩

/-- Mat4x4::rotationXZ(angle). -/
def rotationXZ (angle : ℝ) : Mat4x4 :=
  let c := Real.cos angle
  let s := Real.sin angle
  ⟨c, 0, -s, 0,  0, 1, 0, 0,  s, 0, c, 0,  0, 0, 0, 1⟩

/-- Mat4x4::rotationYZ(angle). -/
def rotationYZ (angle : ℝ) : Mat4x4 :=
  let c := Real.cos angle
  let s := Real.sin angle
  ⟨1, 0, 0, 0,  0, c, -s, 0,  0, s, c, 0,  0, 0, 0, 1⟩

/-- Mat4x4::rotationXW(angle). -/
def rotationXW (angle : ℝ) : Mat4x4 :=
  let c := Real.cos angle
  let s := Real.sin angle
  ⟨c, 0, 0, -s,  0, 1, 0, 0,  0, 0, 1, 0,  s, 0, 0, c⟩

/-- Mat4x4::rotationYW(angle). -/
def rotationYW (angle : ℝ) : Mat4x4 :=
  let c := Real.cos angle
  let s := Real.sin angle
  ⟨1, 0, 0, 0,  0, c, 0, -s,  0, 0, 1, 0,  0, s, 0, c⟩

/-- Mat4x4::rotationZW(angle). -/
def rotationZW (angle : ℝ) : Mat4x4 :=
  let c := Real.cos angle
  let s := Real.sin angle
  ⟨1, 0, 0, 0,  0, 1, 0, 0,  0, 0, c, -s,  0, 0, s, c⟩

/-- Mat4x4::operator*(const Vec4&): rows of the matrix dotted with v. -/
def mulVec (m : Mat4x4) (v : Vec4) : Vec4 :=
  ⟨m.a00 * v.x + m.a01 * v.y + m.a02 * v.z + m.a03 * v.w,
   m.a10 * v.x + m.a11 * v.y + m.a12 * v.z + m.a13 * v.w,
   m.a20 * v.x + m.a21 * v.y + m.a22 * v.z + m.a23 * v.w,
   m.a30 * v.x + m.a31 * v.y + m.a32 * v.z + m.a33 * v.w⟩

/-- Mat4x4::operator*(const Mat4x4&): each column of the result is
this * (column of other), i.e. entry (r, c) is row r of this dotted
with column c of other. -/
def mul (a b : Mat4x4) : Mat4x4 :=
  ⟨a.a00 * b.a00 + a.a01 * b.a10 + a.a02 * b.a20 + a.a03 * b.a30,
   a.a00 * b.a01 + a.a01 * b.a11 + a.a02 * b.a21 + a.a03 * b.a31,
   a.a00 * b.a02 + a.a01 * b.a12 + a.a02 * b.a22 + a.a03 * b.a32,
   a.a00 * b.a03 + a.a01 * b.a13 + a.a02 * b.a23 + a.a03 * b.a33,
   a.a10 * b.a00 + a.a11 * b.a10 + a.a12 * b.a20 + a.a13 * b.a30,
   a.a10 * b.a01 + a.a11 * b.a11 + a.a12 * b.a21 + a.a13 * b.a31,
   a.a10 * b.a02 + a.a11 * b.a12 + a.a12 * b.a22 + a.a13 * b.a32,
   a.a10 * b.a03 + a.a11 * b.a13 + a.a12 * b.a23 + a.a13 * b.a33,
   a.a20 * b.a00 + a.a21 * b.a10 + a.a22 * b.a20 + a.a23 * b.a30,
   a.a20 * b.a01 + a.a21 * b.a11 + a.a22 * b.a21 + a.a23 * b.a31,
   a.a20 * b.a02 + a.a21 * b.a12 + a.a22 * b.a22 + a.a23 * b.a32,
   a.a20 * b.a03 + a.a21 * b.a13 + a.a22 * b.a23 + a.a23 * b.a33,
   a.a30 * b.a00 + a.a31 * b.a10 + a.a32 * b.a20 + a.a33 * b.a30,
   a.a30 * b.a01 + a.a31 * b.a11 + a.a32 * b.a21 + a.a33 * b.a31,
   a.a30 * b.a02 + a.a31 * b.a12 + a.a32 * b.a22 + a.a33 * b.a32,
   a.a30 * b.a03 + a.a31 * b.a13 + a.a32 * b.a23 + a.a33 * b.a33⟩

/-- Mat4x4::rotationFromAngles: compose the six plane rotations in the
fixed order XY, XZ, YZ, XW, YW, ZW, skipping angles of magnitude at
most 1e-8. -/
def rotationFromAngles (xy xz yz xw yw zw : ℝ) : Mat4x4 :=
  let r0 := identity
  let r1 := if |xy| > 1e-8 then r0.mul (rotationXY xy) else r0
  let r2 := if |xz| > 1e-8 then r1.mul (rotationXZ xz) else r1
  let r3 := if |yz| > 1e-8 then r2.mul (rotationYZ yz) else r2
  let r4 := if |xw| > 1e-8 then r3.mul (rotationXW xw) else r3
  let r5 := if |yw| > 1e-8 then r4.mul (rotationYW yw) else r4
  let r6 := if |zw| > 1e-8 then r5.mul (rotationZW zw) else r5
  r6

/-- Mat4x4::determinant: 2x2 cofactor sub-products b00..b11 combined. -/
def determinant (m : Mat4x4) : ℝ :=
  let b00 := m.a00 * m.a11 - m.a01 * m.a10
  let b01 := m.a00 * m.a12 - m.a02 * m.a10
  let b02 := m.a00 * m.a13 - m.a03 * m.a10
  let b03 := m.a01 * m.a12 - m.a02 * m.a11
  let b04 := m.a01 * m.a13 - m.a03 * m.a11
  let b05 := m.a02 * m.a13 - m.a03 * m.a12
  let b06 := m.a20 * m.a31 - m.a21 * m.a30
  let b07 := m.a20 * m.a32 - m.a22 * m.a30
  let b08 := m.a20 * m.a33 - m.a23 * m.a30
  let b09 := m.a21 * m.a32 - m.a22 * m.a31
  let b10 := m.a21 * m.a33 - m.a23 * m.a31
  let b11 := m.a22 * m.a33 - m.a23 * m.a32
  b00 * b11 - b01 * b10 + b02 * b09 + b03 * b08 - b04 * b07 + b05 * b06

/-- Mat4x4::inverse: adjugate method; returns the identity matrix when
|det| < 1e-10 (singular). -/
def inverse (m : Mat4x4) : Mat4x4 :=
  let b00 := m.a00 * m.a11 - m.a01 * m.a10
  let b01 := m.a00 * m.a12 - m.a02 * m.a10
  let b02 := m.a00 * m.a13 - m.a03 * m.a10
  let b03 := m.a01 * m.a12 - m.a02 * m.a11
  let b04 := m.a01 * m.a13 - m.a03 * m.a11
  let b05 := m.a02 * m.a13 - m.a03 * m.a12
  let b06 := m.a20 * m.a31 - m.a21 * m.a30
  let b07 := m.a20 * m.a32 - m.a22 * m.a30
  let b08 := m.a20 * m.a33 - m.a23 * m.a30
  let b09 := m.a21 * m.a32 - m.a22 * m.a31
  let b10 := m.a21 * m.a33 - m.a23 * m.a31
  let b11 := m.a22 * m.a33 - m.a23 * m.a32
  let det := b00 * b11 - b01 * b10 + b02 * b09 + b03 * b08 - b04 * b07 + b05 * b06
  if |det| < 1e-10 then identity
  else
    let invDet := 1 / det
    ⟨(m.a11 * b11 - m.a12 * b10 + m.a13 * b09) * invDet,
     (-m.a01 * b11 + m.a02 * b10 - m.a03 * b09) * invDet,
     (m.a31 * b05 - m.a32 * b04 + m.a33 * b03) * invDet,
     (-m.a21 * b05 + m.a22 * b04 - m.a23 * b03) * invDet,
     (-m.a10 * b11 + m.a12 * b08 - m.a13 * b07) * invDet,
     (m.a00 * b11 - m.a02 * b08 + m.a03 * b07) * invDet,
     (-m.a30 * b05 + m.a32 * b02 - m.a33 * b01) * invDet,
     (m.a20 * b05 - m.a22 * b02 + m.a23 * b01) * invDet,
     (m.a10 * b10 - m.a11 * b08 + m.a13 * b06) * invDet,
     (-m.a00 * b10 + m.a01 * b08 - m.a03 * b06) * invDet,
     (m.a30 * b04 - m.a31 * b02 + m.a33 * b00) * invDet,
     (-m.a20 * b04 + m.a21 * b02 - m.a23 * b00) * invDet,
     (-m.a10 * b09 + m.a11 * b07 - m.a12 * b06) * invDet,
     (m.a00 * b09 - m.a01 * b07 + m.a02 * b06) * invDet,
     (-m.a30 * b03 + m.a31 * b01 - m.a32 * b00) * invDet,
     (m.a20 * b03 - m.a21 * b01 + m.a22 * b00) * invDet⟩

/-- Mat4x4::isIdentity(epsilon): every diagonal element within epsilon
of 1 and every off-diagonal element within epsilon of 0 (the C++
returns false as soon as one |element - expected| exceeds epsilon;
default epsilon is 1e-5). -/
def isIdentity (m : Mat4x4) (epsilon : ℝ) : Prop :=
  |m.a00 - 1| ≤ epsilon ∧ |m.a01| ≤ epsilon ∧ |m.a02| ≤ epsilon ∧ |m.a03| ≤ epsilon ∧
  |m.a10| ≤ epsilon ∧ |m.a11 - 1| ≤ epsilon ∧ |m.a12| ≤ epsilon ∧ |m.a13| ≤ epsilon ∧
  |m.a20| ≤ epsilon ∧ |m.a21| ≤ epsilon ∧ |m.a22 - 1| ≤ epsilon ∧ |m.a23| ≤ epsilon ∧
  |m.a30| ≤ epsilon ∧ |m.a31| ≤ epsilon ∧ |m.a32| ≤ epsilon ∧ |m.a33 - 1| ≤ epsilon

end Mat4x4

/-- The six rotation planes of Rotor4D.hpp. -/
inductive RotationPlane where
  | XY
  | XZ
  | YZ
  | XW
  | YW
  | ZW

/-- 4D rotor: scalar s, six bivectors, pseudoscalar xyzw (Rotor4D.hpp). -/
structure Rotor4D where
  s : ℝ
  xy : ℝ
  xz : ℝ
  yz : ℝ
  xw : ℝ
  yw : ℝ
  zw : ℝ
  xyzw : ℝ

namespace Rotor4D

/-- Rotor4D::identity() = (1, 0, 0, 0, 0, 0, 0, 0). -/
def identity : Rotor4D := ⟨1, 0, 0, 0, 0, 0, 0, 0⟩

/-- Componentwise negation, as built inline by Rotor4D::slerp
(Rotor4D.cpp line 223). -/
def neg (r : Rotor4D) : Rotor4D :=
  ⟨-r.s, -r.xy, -r.xz, -r.yz, -r.xw, -r.yw, -r.zw, -r.xyzw⟩

/-- Rotor4D::fromPlaneAngle: s = cos(angle/2) and the bivector of the
chosen plane = sin(angle/2), all other components zero. -/
def fromPlaneAngle (plane : RotationPlane) (angle : ℝ) : Rotor4D :=
  let halfAngle := angle * 0.5
  let c := Real.cos halfAngle
  let s := Real.sin halfAngle
  match plane with
  | RotationPlane.XY => ⟨c, s, 0, 0, 0, 0, 0, 0⟩
  | RotationPlane.XZ => ⟨c, 0, s, 0, 0, 0, 0, 0⟩
  | RotationPlane.YZ => ⟨c, 0, 0, s, 0, 0, 0, 0⟩
  | RotationPlane.XW => ⟨c, 0, 0, 0, s, 0, 0, 0⟩
  | RotationPlane.YW => ⟨c, 0, 0, 0, 0, s, 0, 0⟩
  | RotationPlane.ZW => ⟨c, 0, 0, 0, 0, 0, s, 0⟩

/-- Rotor4D::operator*: the Cl(4,0) geometric product restricted to the
even subalgebra, exactly the eight bilinear formulas of Rotor4D.cpp
lines 69-107. -/
def mul (a b : Rotor4D) : Rotor4D :=
  ⟨a.s * b.s - a.xy * b.xy - a.xz * b.xz - a.yz * b.yz
     - a.xw * b.xw - a.yw * b.yw - a.zw * b.zw - a.xyzw * b.xyzw,
   a.s * b.xy + a.xy * b.s - a.xz * b.yz + a.yz * b.xz
     - a.xw * b.yw + a.yw * b.xw + a.zw * b.xyzw + a.xyzw * b.zw,
   a.s * b.xz + a.xy * b.yz + a.xz * b.s - a.yz * b.xy
     - a.xw * b.zw - a.yw * b.xyzw + a.zw * b.xw + a.xyzw * b.yw,
   a.s * b.yz - a.xy * b.xz + a.xz * b.xy + a.yz * b.s
     + a.xw * b.xyzw - a.yw * b.zw + a.zw * b.yw - a.xyzw * b.xw,
   a.s * b.xw + a.xy * b.yw + a.xz * b.zw - a.yz * b.xyzw
     + a.xw * b.s - a.yw * b.xy - a.zw * b.xz + a.xyzw * b.yz,
   a.s * b.yw - a.xy * b.xw + a.xz * b.xyzw + a.yz * b.zw
     + a.xw * b.xy + a.yw * b.s - a.zw * b.yz - a.xyzw * b.xz,
   a.s * b.zw - a.xy * b.xyzw - a.xz * b.xw - a.yz * b.yw
     + a.xw * b.xz + a.yw * b.yz + a.zw * b.s + a.xyzw * b.xy,
   a.s * b.xyzw + a.xy * b.zw - a.xz * b.yw + a.yz * b.xw
     + a.xw * b.yz - a.yw * b.xz + a.zw * b.xy + a.xyzw * b.s⟩

/-- Rotor4D::fromEuler6: compose single-plane rotors in the fixed
order XY, XZ, YZ, XW, YW, ZW, skipping angles of magnitude at most
1e-8. -/
def fromEuler6 (xy xz yz xw yw zw : ℝ) : Rotor4D :=
  let r0 := identity
  let r1 := if |xy| > 1e-8 then r0.mul (fromPlaneAngle RotationPlane.XY xy) else r0
  let r2 := if |xz| > 1e-8 then r1.mul (fromPlaneAngle RotationPlane.XZ xz) else r1
  let r3 := if |yz| > 1e-8 then r2.mul (fromPlaneAngle RotationPlane.YZ yz) else r2
  let r4 := if |xw| > 1e-8 then r3.mul (fromPlaneAngle RotationPlane.XW xw) else r3
  let r5 := if |yw| > 1e-8 then r4.mul (fromPlaneAngle RotationPlane.YW yw) else r4
  let r6 := if |zw| > 1e-8 then r5.mul (fromPlaneAngle RotationPlane.ZW zw) else r5
  r6

/-- Rotor4D::reverse: negate the six bivectors, keep s and xyzw. -/
def reverse (r : Rotor4D) : Rotor4D :=
  ⟨r.s, -r.xy, -r.xz, -r.yz, -r.xw, -r.yw, -r.zw, r.xyzw⟩

/-- Rotor4D::magnitudeSquared: sum of squares of all 8 components. -/
def magnitudeSquared (r : Rotor4D) : ℝ :=
  r.s * r.s + r.xy * r.xy + r.xz * r.xz + r.yz * r.yz
    + r.xw * r.xw + r.yw * r.yw + r.zw * r.zw + r.xyzw * r.xyzw

/-- Rotor4D::magnitude = sqrt(magnitudeSquared). -/
def magnitude (r : Rotor4D) : ℝ := Real.sqrt r.magnitudeSquared

/-- Rotor4D::normalized: scale by 1/magnitude when magnitude > 0, else
return the identity rotor. -/
def normalized (r : Rotor4D) : Rotor4D :=
  if 0 < r.magnitude then
    let invMag := 1 / r.magnitude
    ⟨r.s * invMag, r.xy * invMag, r.xz * invMag, r.yz * invMag,
     r.xw * invMag, r.yw * invMag, r.zw * invMag, r.xyzw * invMag⟩
  else identity

/-- The in-place void Rotor4D::normalize(), modelled as the value the
rotor holds afterwards: scaled by 1/magnitude when magnitude > 0,
otherwise left unchanged (there is no else branch in the C++). -/
def normalize (r : Rotor4D) : Rotor4D :=
  if 0 < r.magnitude then
    let invMag := 1 / r.magnitude
    ⟨r.s * invMag, r.xy * invMag, r.xz * invMag, r.yz * invMag,
     r.xw * invMag, r.yw * invMag, r.zw * invMag, r.xyzw * invMag⟩
  else r

/-- Rotor4D::inverse: reverse scaled by 1/magnitudeSquared when
magnitudeSquared > 0, else the identity rotor. -/
def inverse (r : Rotor4D) : Rotor4D :=
  if 0 < r.magnitudeSquared then
    let invMagSq := 1 / r.magnitudeSquared
    let rev := r.reverse
    ⟨rev.s * invMagSq, rev.xy * invMagSq, rev.xz * invMagSq, rev.yz * invMagSq,
     rev.xw * invMagSq, rev.yw * invMagSq, rev.zw * invMagSq, rev.xyzw * invMagSq⟩
  else identity

/-- Rotor4D::toMatrix: normalize the rotor, then fill the sixteen
entries with the quadratic expressions of Rotor4D.cpp lines 266-306,
copied verbatim (entry aRC is m.at(R, C)). -/
def toMatrix (r : Rotor4D) : Mat4x4 :=
  let n := r.normalized
  ⟨n.s * n.s + n.xy * n.xy + n.xz * n.xz + n.xw * n.xw
     - n.yz * n.yz - n.yw * n.yw - n.zw * n.zw - n.xyzw * n.xyzw,
   2 * (n.xy * n.yz + n.s * n.xz + n.xw * n.xyzw + n.yw * n.zw),
   2 * (n.xz * n.yz - n.s * n.xy + n.xw * n.zw - n.yw * n.xyzw),
   2 * (n.xw * n.yz - n.s * n.xyzw - n.xy * n.zw - n.xz * n.yw),
   2 * (n.xy * n.yz - n.s * n.xz - n.xw * n.xyzw + n.yw * n.zw),
   n.s * n.s - n.xy * n.xy + n.yz * n.yz + n.yw * n.yw
     - n.xz * n.xz - n.xw * n.xw - n.zw * n.zw - n.xyzw * n.xyzw,
   2 * (n.yz * n.xz + n.s * n.xy + n.yw * n.xyzw + n.xw * n.zw),
   2 * (n.yw * n.xz - n.s * n.xyzw - n.xy * n.xw - n.yz * n.zw),
   2 * (n.xz * n.yz + n.s * n.xy - n.xw * n.zw - n.yw * n.xyzw),
   2 * (n.yz * n.xz - n.s * n.xy - n.yw * n.xyzw + n.xw * n.zw),
   n.s * n.s - n.xy * n.xy - n.yz * n.yz + n.xz * n.xz
     + n.zw * n.zw - n.xw * n.xw - n.yw * n.yw - n.xyzw * n.xyzw,
   2 * (n.zw * n.xy + n.s * n.xyzw + n.xz * n.xw + n.yz * n.yw),
   2 * (n.xw * n.yz + n.s * n.xyzw + n.xy * n.zw - n.xz * n.yw),
   2 * (n.yw * n.xz + n.s * n.xyzw + n.xy * n.xw + n.yz * n.zw),
   2 * (n.zw * n.xy - n.s * n.xyzw - n.xz * n.xw - n.yz * n.yw),
   n.s * n.s - n.xy * n.xy - n.yz * n.yz - n.xz * n.xz
     - n.zw * n.zw + n.xw * n.xw + n.yw * n.yw - n.xyzw * n.xyzw⟩

/-- Rotor4D::rotate: the C++ computes an expanded closed-form result
into locals, discards it, and returns toMatrix() * v (Rotor4D.cpp line
207, "Use matrix multiplication for correctness"); only the returned
value is observable, so rotate is embedded as that return value. -/
def rotate (r : Rotor4D) (v : Vec4) : Vec4 := r.toMatrix.mulVec v

/-- Rotor4D::dot: 8-component Euclidean dot product of two rotors. -/
def dot (a b : Rotor4D) : ℝ :=
  a.s * b.s + a.xy * b.xy + a.xz * b.xz + a.yz * b.yz
    + a.xw * b.xw + a.yw * b.yw + a.zw * b.zw + a.xyzw * b.xyzw

/-- Rotor4D::nlerp: componentwise linear interpolation from a toward
other, followed by the in-place normalize. -/
def nlerp (a other : Rotor4D) (t : ℝ) : Rotor4D :=
  let result : Rotor4D :=
    ⟨a.s + (other.s - a.s) * t,
     a.xy + (other.xy - a.xy) * t,
     a.xz + (other.xz - a.xz) * t,
     a.yz + (other.yz - a.yz) * t,
     a.xw + (other.xw - a.xw) * t,
     a.yw + (other.yw - a.yw) * t,
     a.zw + (other.zw - a.zw) * t,
     a.xyzw + (other.xyzw - a.xyzw) * t⟩
  result.normalize

/-- Rotor4D::slerp: negate other when the dot is negative (shortest
path), fall back to nlerp when the corrected dot exceeds 0.9995, else
blend with sin((1-t)θ)/sinθ and sin(tθ)/sinθ where θ = acos(dot). -/
def slerp (a other : Rotor4D) (t : ℝ) : Rotor4D :=
  let d0 := a.dot other
  let b := if d0 < 0 then neg other else other
  let d := if d0 < 0 then -d0 else d0
  if d > 0.9995 then a.nlerp b t
  else
    let theta := Real.arccos d
    let sinTheta := Real.sin theta
    let w1 := Real.sin ((1 - t) * theta) / sinTheta
    let w2 := Real.sin (t * theta) / sinTheta
    ⟨a.s * w1 + b.s * w2,
     a.xy * w1 + b.xy * w2,
     a.xz * w1 + b.xz * w2,
     a.yz * w1 + b.yz * w2,
     a.xw * w1 + b.xw * w2,
     a.yw * w1 + b.yw * w2,
     a.zw * w1 + b.zw * w2,
     a.xyzw * w1 + b.xyzw * w2⟩

end Rotor4D

/-! Helper lemmas about the embedded operations. -/

namespace Rotor4D

/-- A rotor of squared magnitude 1 is left unchanged by normalized(). -/
lemma normalized_of_unit (r : Rotor4D) (h : r.magnitudeSquared = 1) :
    r.normalized = r := by
  have hm : r.magnitude = 1 := by rw [Rotor4D.magnitude, h, Real.sqrt_one]
  unfold Rotor4D.normalized
  rw [hm]
  norm_num

/-- A rotor of squared magnitude 1 is left unchanged by the in-place
normalize(). -/
lemma normalize_of_unit (r : Rotor4D) (h : r.magnitudeSquared = 1) :
    r.normalize = r := by
  have hm : r.magnitude = 1 := by rw [Rotor4D.magnitude, h, Real.sqrt_one]
  unfold Rotor4D.normalize
  rw [hm]
  norm_num

/-- For a rotor of squared magnitude 1, inverse() is exactly reverse(). -/
lemma inverse_of_unit (r : Rotor4D) (h : r.magnitudeSquared = 1) :
    r.inverse = r.reverse := by
  unfold Rotor4D.inverse
  rw [h]
  norm_num

/-- Componentwise negation keeps the squared magnitude. -/
lemma magSq_neg (r : Rotor4D) : (Rotor4D.neg r).magnitudeSquared = r.magnitudeSquared := by
  obtain ⟨s, b1, b2, b3, b4, b5, b6, p⟩ := r
  simp only [Rotor4D.neg, Rotor4D.magnitudeSquared]
  ring

/-- Componentwise negation keeps the magnitude. -/
lemma magnitude_neg (r : Rotor4D) : (Rotor4D.neg r).magnitude = r.magnitude := by
  unfold Rotor4D.magnitude
  rw [magSq_neg]

/-- A rotor and its componentwise negation convert to the same matrix:
every entry of toMatrix is quadratic in the normalized components. -/
lemma toMatrix_neg (r : Rotor4D) : (Rotor4D.neg r).toMatrix = r.toMatrix := by
  unfold Rotor4D.toMatrix Rotor4D.normalized
  rw [magnitude_neg]
  by_cases h : 0 < r.magnitude
  · simp only [if_pos h]
    obtain ⟨s, b1, b2, b3, b4, b5, b6, p⟩ := r
    simp only [Rotor4D.neg, Mat4x4.mk.injEq]
    refine ⟨?_, ?_, ?_, ?_, ?_, ?_, ?_, ?_, ?_, ?_, ?_, ?_, ?_, ?_, ?_, ?_⟩ <;> ring
  · simp only [if_neg h]

/-- The identity rotor is a left unit for the geometric product. -/
lemma identity_mul_rotor (b : Rotor4D) : Rotor4D.identity.mul b = b := by
  obtain ⟨s, b1, b2, b3, b4, b5, b6, p⟩ := b
  simp only [Rotor4D.identity, Rotor4D.mul, Rotor4D.mk.injEq]
  refine ⟨?_, ?_, ?_, ?_, ?_, ?_, ?_, ?_⟩ <;> ring

/-- Squared magnitude of a rotor with only scalar and xy components. -/
lemma magSq_xyRotor (c σ : ℝ) :
    (⟨c, σ, 0, 0, 0, 0, 0, 0⟩ : Rotor4D).magnitudeSquared = c * c + σ * σ := by
  simp only [Rotor4D.magnitudeSquared]
  ring

/-- nlerp at t = 0 is the in-place normalization of the start rotor. -/
lemma nlerp_zero (a b : Rotor4D) : a.nlerp b 0 = a.normalize := by
  have hX : (⟨a.s + (b.s - a.s) * 0, a.xy + (b.xy - a.xy) * 0, a.xz + (b.xz - a.xz) * 0,
      a.yz + (b.yz - a.yz) * 0, a.xw + (b.xw - a.xw) * 0, a.yw + (b.yw - a.yw) * 0,
      a.zw + (b.zw - a.zw) * 0, a.xyzw + (b.xyzw - a.xyzw) * 0⟩ : Rotor4D) = a := by
    obtain ⟨s, b1, b2, b3, b4, b5, b6, p⟩ := a
    simp only [Rotor4D.mk.injEq]
    refine ⟨?_, ?_, ?_, ?_, ?_, ?_, ?_, ?_⟩ <;> ring
  unfold Rotor4D.nlerp
  rw [hX]

/-- nlerp at t = 1 is the in-place normalization of the end rotor. -/
lemma nlerp_one (a b : Rotor4D) : a.nlerp b 1 = b.normalize := by
  have hX : (⟨a.s + (b.s - a.s) * 1, a.xy + (b.xy - a.xy) * 1, a.xz + (b.xz - a.xz) * 1,
      a.yz + (b.yz - a.yz) * 1, a.xw + (b.xw - a.xw) * 1, a.yw + (b.yw - a.yw) * 1,
      a.zw + (b.zw - a.zw) * 1, a.xyzw + (b.xyzw - a.xyzw) * 1⟩ : Rotor4D) = b := by
    obtain ⟨s, b1, b2, b3, b4, b5, b6, p⟩ := b
    simp only [Rotor4D.mk.injEq]
    refine ⟨?_, ?_, ?_, ?_, ?_, ?_, ?_, ?_⟩ <;> ring
  unfold Rotor4D.nlerp
  rw [hX]

end Rotor4D

namespace Mat4x4

/-- The identity matrix is a left unit for matrix multiplication. -/
lemma identity_mul_mat (b : Mat4x4) : Mat4x4.identity.mul b = b := by
  obtain ⟨e00, e01, e02, e03, e10, e11, e12, e13, e20, e21, e22, e23, e30, e31, e32, e33⟩ := b
  simp only [Mat4x4.identity, Mat4x4.mul, Mat4x4.mk.injEq]
  refine ⟨?_, ?_, ?_, ?_, ?_, ?_, ?_, ?_, ?_, ?_, ?_, ?_, ?_, ?_, ?_, ?_⟩ <;> ring

end Mat4x4

/-- toMatrix of a unit rotor with only scalar part c and xy bivector σ:
the sixteen entries evaluated symbolically from the embedded formulas. -/
lemma toMatrix_xyRotor (c σ : ℝ) (h : c * c + σ * σ = 1) :
    (⟨c, σ, 0, 0, 0, 0, 0, 0⟩ : Rotor4D).toMatrix =
      ⟨1, 0, -(2 * (c * σ)), 0,
       0, c * c - σ * σ, 2 * (c * σ), 0,
       2 * (c * σ), -(2 * (c * σ)), c * c - σ * σ, 0,
       0, 0, 0, c * c - σ * σ⟩ := by
  have hu : (⟨c, σ, 0, 0, 0, 0, 0, 0⟩ : Rotor4D).magnitudeSquared = 1 := by
    rw [Rotor4D.magSq_xyRotor]
    exact h
  unfold Rotor4D.toMatrix
  rw [Rotor4D.normalized_of_unit _ hu]
  simp only [Mat4x4.mk.injEq]
  refine ⟨?_, ?_, ?_, ?_, ?_, ?_, ?_, ?_, ?_, ?_, ?_, ?_, ?_, ?_, ?_, ?_⟩ <;>
    first
      | ring1
      | linear_combination h

/-- fromPlaneAngle(XY, π/2) is the rotor (√2/2, √2/2, 0, 0, 0, 0, 0, 0). -/
lemma fromPlaneAngle_XY_pi_div_two :
    Rotor4D.fromPlaneAngle RotationPlane.XY (Real.pi / 2) =
      ⟨Real.sqrt 2 / 2, Real.sqrt 2 / 2, 0, 0, 0, 0, 0, 0⟩ := by
  have hhalf : Real.pi / 2 * 0.5 = Real.pi / 4 := by ring
  simp only [Rotor4D.fromPlaneAngle, hhalf, Real.cos_pi_div_four, Real.sin_pi_div_four]

/-- Concrete matrix the code produces for the π/2 XY rotor. -/
lemma toMatrix_XY_pi_div_two :
    (Rotor4D.fromPlaneAngle RotationPlane.XY (Real.pi / 2)).toMatrix =
      ⟨1, 0, -1, 0, 0, 0, 1, 0, 1, -1, 0, 0, 0, 0, 0, 0⟩ := by
  have h2 : Real.sqrt 2 * Real.sqrt 2 = 2 := Real.mul_self_sqrt (by norm_num)
  have hhalf : Real.sqrt 2 / 2 * (Real.sqrt 2 / 2) = 1 / 2 := by linear_combination h2 / 4
  rw [fromPlaneAngle_XY_pi_div_two,
      toMatrix_xyRotor (Real.sqrt 2 / 2) (Real.sqrt 2 / 2) (by linear_combination h2 / 2),
      hhalf]
  norm_num [Mat4x4.mk.injEq]

/-- The code rotates (1,0,0,0) by the π/2 XY rotor to (1,0,1,0). -/
lemma rotate_XY_unitX :
    (Rotor4D.fromPlaneAngle RotationPlane.XY (Real.pi / 2)).rotate ⟨1, 0, 0, 0⟩ =
      ⟨1, 0, 1, 0⟩ := by
  rw [Rotor4D.rotate, toMatrix_XY_pi_div_two]
  simp only [Mat4x4.mulVec, Vec4.mk.injEq]
  norm_num

/-- The code rotates (0,1,0,0) by the π/2 XY rotor to (0,0,-1,0). -/
lemma rotate_XY_unitY :
    (Rotor4D.fromPlaneAngle RotationPlane.XY (Real.pi / 2)).rotate ⟨0, 1, 0, 0⟩ =
      ⟨0, 0, -1, 0⟩ := by
  rw [Rotor4D.rotate, toMatrix_XY_pi_div_two]
  simp only [Mat4x4.mulVec, Vec4.mk.injEq]
  norm_num

/-- The inverse of the π/2 XY rotor is its reverse (√2/2, -√2/2, 0, ..., 0). -/
lemma inverse_XY_pi_div_two :
    (Rotor4D.fromPlaneAngle RotationPlane.XY (Real.pi / 2)).inverse =
      ⟨Real.sqrt 2 / 2, -(Real.sqrt 2 / 2), 0, 0, 0, 0, 0, 0⟩ := by
  have h2 : Real.sqrt 2 * Real.sqrt 2 = 2 := Real.mul_self_sqrt (by norm_num)
  rw [fromPlaneAngle_XY_pi_div_two]
  rw [Rotor4D.inverse_of_unit _ (by rw [Rotor4D.magSq_xyRotor]; linear_combination h2 / 2)]
  unfold Rotor4D.reverse
  simp only [Rotor4D.mk.injEq]
  norm_num

/-- Concrete matrix the code produces for the inverse of the π/2 XY rotor. -/
lemma toMatrix_XY_inv :
    (⟨Real.sqrt 2 / 2, -(Real.sqrt 2 / 2), 0, 0, 0, 0, 0, 0⟩ : Rotor4D).toMatrix =
      ⟨1, 0, 1, 0, 0, 0, -1, 0, -1, 1, 0, 0, 0, 0, 0, 0⟩ := by
  have h2 : Real.sqrt 2 * Real.sqrt 2 = 2 := Real.mul_self_sqrt (by norm_num)
  have hhalf : Real.sqrt 2 / 2 * -(Real.sqrt 2 / 2) = -(1 / 2) := by linear_combination -h2 / 4
  rw [toMatrix_xyRotor (Real.sqrt 2 / 2) (-(Real.sqrt 2 / 2)) (by linear_combination h2 / 2),
      hhalf]
  norm_num [Mat4x4.mk.injEq]

/-- fromEuler6 with only the XY angle π/2 reduces to the single XY rotor. -/
lemma fromEuler6_xy_only :
    Rotor4D.fromEuler6 (Real.pi / 2) 0 0 0 0 0 =
      Rotor4D.fromPlaneAngle RotationPlane.XY (Real.pi / 2) := by
  have hpi2 : |Real.pi / 2| > 1e-8 := by
    rw [abs_of_pos (by positivity)]
    linarith [Real.pi_gt_three]
  have hz : ¬ (|(0 : ℝ)| > 1e-8) := by norm_num
  simp only [Rotor4D.fromEuler6, if_pos hpi2, if_neg hz, Rotor4D.identity_mul_rotor]

/-- rotationFromAngles with only the XY angle π/2 reduces to rotationXY(π/2). -/
lemma rotationFromAngles_xy_only :
    Mat4x4.rotationFromAngles (Real.pi / 2) 0 0 0 0 0 =
      Mat4x4.rotationXY (Real.pi / 2) := by
  have hpi2 : |Real.pi / 2| > 1e-8 := by
    rw [abs_of_pos (by positivity)]
    linarith [Real.pi_gt_three]
  have hz : ¬ (|(0 : ℝ)| > 1e-8) := by norm_num
  simp only [Mat4x4.rotationFromAngles, if_pos hpi2, if_neg hz, Mat4x4.identity_mul_mat]

/-- rotationXY at π/2 is the elementary x→y rotation matrix. -/
lemma rotationXY_pi_div_two :
    Mat4x4.rotationXY (Real.pi / 2) =
      ⟨0, -1, 0, 0, 1, 0, 0, 0, 0, 0, 1, 0, 0, 0, 0, 1⟩ := by
  simp only [Mat4x4.rotationXY, Real.cos_pi_div_two, Real.sin_pi_div_two]

namespace Rotor4D

/-- slerp at t = 0 returns the start rotor exactly (for a unit start
rotor): the sin-weight branch gives weights 1 and 0, and the nlerp
branch re-normalizes the unit start rotor. -/
lemma slerp_zero (A B : Rotor4D) (hA : A.magnitudeSquared = 1) : A.slerp B 0 = A := by
  simp only [Rotor4D.slerp]
  by_cases hneg : A.dot B < 0
  · simp only [if_pos hneg]
    by_cases hbig : -(A.dot B) > 0.9995
    · rw [if_pos hbig, Rotor4D.nlerp_zero, Rotor4D.normalize_of_unit _ hA]
    · rw [if_neg hbig]
      have hle : -(A.dot B) ≤ 0.9995 := not_lt.mp hbig
      have h1 : -(A.dot B) < 1 := by linarith
      have hge : (0 : ℝ) ≤ -(A.dot B) := by linarith
      have hθpos : 0 < Real.arccos (-(A.dot B)) := Real.arccos_pos.mpr h1
      have hθpi : Real.arccos (-(A.dot B)) < Real.pi :=
        lt_of_le_of_lt (Real.arccos_le_pi_div_two.mpr hge) (by linarith [Real.pi_pos])
      have hs : Real.sin (Real.arccos (-(A.dot B))) ≠ 0 :=
        ne_of_gt (Real.sin_pos_of_pos_of_lt_pi hθpos hθpi)
      norm_num [div_self hs]
  · simp only [if_neg hneg]
    have hge : (0 : ℝ) ≤ A.dot B := not_lt.mp hneg
    by_cases hbig : A.dot B > 0.9995
    · rw [if_pos hbig, Rotor4D.nlerp_zero, Rotor4D.normalize_of_unit _ hA]
    · rw [if_neg hbig]
      have hle : A.dot B ≤ 0.9995 := not_lt.mp hbig
      have h1 : A.dot B < 1 := by linarith
      have hθpos : 0 < Real.arccos (A.dot B) := Real.arccos_pos.mpr h1
      have hθpi : Real.arccos (A.dot B) < Real.pi :=
        lt_of_le_of_lt (Real.arccos_le_pi_div_two.mpr hge) (by linarith [Real.pi_pos])
      have hs : Real.sin (Real.arccos (A.dot B)) ≠ 0 :=
        ne_of_gt (Real.sin_pos_of_pos_of_lt_pi hθpos hθpi)
      norm_num [div_self hs]

/-- slerp at t = 1 returns the end rotor exactly, possibly with all
components negated (the shortest-path correction), for a unit end
rotor. -/
lemma slerp_one (A B : Rotor4D) (hB : B.magnitudeSquared = 1) :
    A.slerp B 1 = B ∨ A.slerp B 1 = Rotor4D.neg B := by
  simp only [Rotor4D.slerp]
  by_cases hneg : A.dot B < 0
  · right
    simp only [if_pos hneg]
    by_cases hbig : -(A.dot B) > 0.9995
    · rw [if_pos hbig, Rotor4D.nlerp_one,
        Rotor4D.normalize_of_unit _ (by rw [Rotor4D.magSq_neg]; exact hB)]
    · rw [if_neg hbig]
      have hle : -(A.dot B) ≤ 0.9995 := not_lt.mp hbig
      have h1 : -(A.dot B) < 1 := by linarith
      have hge : (0 : ℝ) ≤ -(A.dot B) := by linarith
      have hθpos : 0 < Real.arccos (-(A.dot B)) := Real.arccos_pos.mpr h1
      have hθpi : Real.arccos (-(A.dot B)) < Real.pi :=
        lt_of_le_of_lt (Real.arccos_le_pi_div_two.mpr hge) (by linarith [Real.pi_pos])
      have hs : Real.sin (Real.arccos (-(A.dot B))) ≠ 0 :=
        ne_of_gt (Real.sin_pos_of_pos_of_lt_pi hθpos hθpi)
      norm_num [div_self hs]
  · left
    simp only [if_neg hneg]
    have hge : (0 : ℝ) ≤ A.dot B := not_lt.mp hneg
    by_cases hbig : A.dot B > 0.9995
    · rw [if_pos hbig, Rotor4D.nlerp_one, Rotor4D.normalize_of_unit _ hB]
    · rw [if_neg hbig]
      have hle : A.dot B ≤ 0.9995 := not_lt.mp hbig
      have h1 : A.dot B < 1 := by linarith
      have hθpos : 0 < Real.arccos (A.dot B) := Real.arccos_pos.mpr h1
      have hθpi : Real.arccos (A.dot B) < Real.pi :=
        lt_of_le_of_lt (Real.arccos_le_pi_div_two.mpr hge) (by linarith [Real.pi_pos])
      have hs : Real.sin (Real.arccos (A.dot B)) ≠ 0 :=
        ne_of_gt (Real.sin_pos_of_pos_of_lt_pi hθpos hθpi)
      norm_num [div_self hs]

end Rotor4D

/-- Clamping identity on a linear order: when l ≤ u the two nestings of
min and max agree. -/
lemma min_max_clamp (l u x : ℝ) (hlu : l ≤ u) :
    min (max x l) u = max l (min u x) := by
  rcases le_total x l with hxl | hlx
  · rw [max_eq_right hxl, min_eq_left hlu, min_eq_right (le_trans hxl hlu), max_eq_left hxl]
  · rw [max_eq_left hlx]
    rcases le_total x u with hxu | hux
    · rw [min_eq_left hxu, min_eq_right hxu, max_eq_right hlx]
    · rw [min_eq_right hux, min_eq_left hux, max_eq_right hlu]

/-! The claims. -/

/-- C1: the claim says fromPlaneAngle(XY, π/2).rotate maps (1,0,0,0) to
(0,1,0,0) and (0,1,0,0) to (-1,0,0,0) within 1e-4.  The code instead
maps (1,0,0,0) to (1,0,1,0) and (0,1,0,0) to (0,0,-1,0) (toMatrix is
not a rotation matrix for this rotor), so the claimed outputs are
missed by far more than the tolerance: the y component of the first
result is 0, not 1. -/
theorem claim1_fromPlaneAngle_rotate_eval :
    (Rotor4D.fromPlaneAngle RotationPlane.XY (Real.pi / 2)).rotate ⟨1, 0, 0, 0⟩ = ⟨1, 0, 1, 0⟩ ∧
    (Rotor4D.fromPlaneAngle RotationPlane.XY (Real.pi / 2)).rotate ⟨0, 1, 0, 0⟩ = ⟨0, 0, -1, 0⟩ ∧
    |((Rotor4D.fromPlaneAngle RotationPlane.XY (Real.pi / 2)).rotate ⟨1, 0, 0, 0⟩).y - 1|
      > 1e-4 := by
  refine ⟨rotate_XY_unitX, rotate_XY_unitY, ?_⟩
  rw [rotate_XY_unitX]
  norm_num

/-- C2: the claim says fromEuler6(angles).rotate(v) equals
rotationFromAngles(angles) * v within tolerance for all angles and v.
At angles (π/2, 0, 0, 0, 0, 0) and v = (1,0,0,0) the rotor path
produces (1,0,1,0) while the matrix path produces (0,1,0,0). -/
theorem claim2_rotor_vs_matrix_path_eval :
    (Rotor4D.fromEuler6 (Real.pi / 2) 0 0 0 0 0).rotate ⟨1, 0, 0, 0⟩ = ⟨1, 0, 1, 0⟩ ∧
    (Mat4x4.rotationFromAngles (Real.pi / 2) 0 0 0 0 0).mulVec ⟨1, 0, 0, 0⟩ = ⟨0, 1, 0, 0⟩ := by
  constructor
  · rw [fromEuler6_xy_only]
    exact rotate_XY_unitX
  · rw [rotationFromAngles_xy_only, rotationXY_pi_div_two]
    simp only [Mat4x4.mulVec, Vec4.mk.injEq]
    norm_num

/-- C3: the claim says every unit rotor preserves vector length within
1e-4.  fromPlaneAngle(XY, π/2) has squared magnitude exactly 1, yet it
rotates the unit vector (1,0,0,0) to (1,0,1,0) of length √2, exceeding
the input length 1 by far more than 1e-4. -/
theorem claim3_length_not_preserved_eval :
    (Rotor4D.fromPlaneAngle RotationPlane.XY (Real.pi / 2)).magnitudeSquared = 1 ∧
    ((Rotor4D.fromPlaneAngle RotationPlane.XY (Real.pi / 2)).rotate ⟨1, 0, 0, 0⟩).length -
      (⟨1, 0, 0, 0⟩ : Vec4).length > 1e-4 := by
  have h2 : Real.sqrt 2 * Real.sqrt 2 = 2 := Real.mul_self_sqrt (by norm_num)
  constructor
  · rw [fromPlaneAngle_XY_pi_div_two, Rotor4D.magSq_xyRotor]
    linear_combination h2 / 2
  · rw [rotate_XY_unitX]
    have hl1 : (⟨1, 0, 1, 0⟩ : Vec4).length = Real.sqrt 2 := by
      unfold Vec4.length Vec4.lengthSquared Vec4.dot
      norm_num
    have hl2 : (⟨1, 0, 0, 0⟩ : Vec4).length = 1 := by
      unfold Vec4.length Vec4.lengthSquared Vec4.dot
      norm_num
    rw [hl1, hl2]
    nlinarith [h2, Real.sqrt_nonneg 2]

/-- C4: for every rotor R and vector v, R.rotate(v) equals
R.toMatrix() * v: the C++ rotate returns exactly toMatrix() * v, so
the two paths agree on every input. -/
theorem claim4_rotate_eq_toMatrix_mulVec (r : Rotor4D) (v : Vec4) :
    r.rotate v = r.toMatrix.mulVec v := rfl

/-- C5: for every matrix with |determinant| < 1e-10, inverse() returns
the identity matrix, and in particular Mat4x4.zero().inverse() passes
isIdentity at the default epsilon 1e-5. -/
theorem claim5_singular_inverse :
    (∀ m : Mat4x4, |m.determinant| < 1e-10 → m.inverse = Mat4x4.identity) ∧
    Mat4x4.zero.inverse.isIdentity 1e-5 := by
  have hsing : ∀ m : Mat4x4, |m.determinant| < 1e-10 → m.inverse = Mat4x4.identity := by
    intro m h
    simp only [Mat4x4.determinant] at h
    simp only [Mat4x4.inverse]
    rw [if_pos h]
  refine ⟨hsing, ?_⟩
  rw [hsing Mat4x4.zero (by simp only [Mat4x4.determinant, Mat4x4.zero]; norm_num)]
  simp only [Mat4x4.isIdentity, Mat4x4.identity]
  norm_num

/-- C5 witness: the singular branch evaluated at the zero matrix. -/
theorem claim5_singular_inverse_witness :
    Mat4x4.zero.inverse = Mat4x4.identity :=
  claim5_singular_inverse.1 Mat4x4.zero
    (by simp only [Mat4x4.determinant, Mat4x4.zero]; norm_num)

/-- C6 counterexample: the claim says every rotor of magnitude at most
1e-10 becomes the identity under normalize/normalized.  The all-zero
rotor has magnitude 0 ≤ 1e-10, yet the in-place normalize() leaves it
all-zero (its if has no else branch), and the all-zero rotor is not
the identity. -/
theorem claim6_normalize_counterexample :
    (⟨0, 0, 0, 0, 0, 0, 0, 0⟩ : Rotor4D).magnitude ≤ 1e-10 ∧
    Rotor4D.normalize ⟨0, 0, 0, 0, 0, 0, 0, 0⟩ = ⟨0, 0, 0, 0, 0, 0, 0, 0⟩ ∧
    (⟨0, 0, 0, 0, 0, 0, 0, 0⟩ : Rotor4D) ≠ Rotor4D.identity := by
  have hm : (⟨0, 0, 0, 0, 0, 0, 0, 0⟩ : Rotor4D).magnitude = 0 := by
    simp [Rotor4D.magnitude, Rotor4D.magnitudeSquared]
  refine ⟨by rw [hm]; norm_num, ?_, ?_⟩
  · unfold Rotor4D.normalize
    rw [hm]
    norm_num
  · intro hcontra
    have hs := congrArg Rotor4D.s hcontra
    simp [Rotor4D.identity] at hs

/-- C6 amended: Vec4::normalized() of the zero vector is the zero
vector; Rotor4D::normalized() of a rotor of magnitude exactly 0 is the
identity rotor while the in-place normalize() leaves such a rotor
unchanged; in particular the all-zero rotor's normalized() is the
identity. -/
theorem claim6_degenerate_normalize_amended :
    Vec4.normalized ⟨0, 0, 0, 0⟩ = ⟨0, 0, 0, 0⟩ ∧
    (∀ r : Rotor4D, r.magnitude = 0 →
      r.normalized = Rotor4D.identity ∧ r.normalize = r) ∧
    (⟨0, 0, 0, 0, 0, 0, 0, 0⟩ : Rotor4D).normalized = Rotor4D.identity := by
  have hz : ∀ r : Rotor4D, r.magnitude = 0 →
      r.normalized = Rotor4D.identity ∧ r.normalize = r := by
    intro r h
    constructor
    · unfold Rotor4D.normalized
      rw [h]
      norm_num
    · unfold Rotor4D.normalize
      rw [h]
      norm_num
  refine ⟨?_, hz, ?_⟩
  · have hlen : (⟨0, 0, 0, 0⟩ : Vec4).length = 0 := by
      unfold Vec4.length Vec4.lengthSquared Vec4.dot
      norm_num
    unfold Vec4.normalized
    rw [hlen]
    norm_num [Vec4.zero]
  · exact (hz ⟨0, 0, 0, 0, 0, 0, 0, 0⟩
      (by simp [Rotor4D.magnitude, Rotor4D.magnitudeSquared])).1

/-- C6 amended witness: the amended statement evaluated at the
all-zero rotor. -/
theorem claim6_degenerate_normalize_amended_witness :
    (⟨0, 0, 0, 0, 0, 0, 0, 0⟩ : Rotor4D).normalized = Rotor4D.identity ∧
    Rotor4D.normalize ⟨0, 0, 0, 0, 0, 0, 0, 0⟩ = ⟨0, 0, 0, 0, 0, 0, 0, 0⟩ :=
  claim6_degenerate_normalize_amended.2.1 ⟨0, 0, 0, 0, 0, 0, 0, 0⟩
    (by simp [Rotor4D.magnitude, Rotor4D.magnitudeSquared])

/-- C7: the claim says R.inverse().rotate(R.rotate(v)) returns v within
tolerance.  For the unit rotor fromPlaneAngle(XY, π/2) and
v = (1,0,0,0) the code returns (2,-1,-1,0), whose x component exceeds
v's by 1. -/
theorem claim7_inverse_roundtrip_eval :
    (Rotor4D.fromPlaneAngle RotationPlane.XY (Real.pi / 2)).inverse.rotate
        ((Rotor4D.fromPlaneAngle RotationPlane.XY (Real.pi / 2)).rotate ⟨1, 0, 0, 0⟩) =
      ⟨2, -1, -1, 0⟩ ∧
    ((Rotor4D.fromPlaneAngle RotationPlane.XY (Real.pi / 2)).inverse.rotate
        ((Rotor4D.fromPlaneAngle RotationPlane.XY (Real.pi / 2)).rotate ⟨1, 0, 0, 0⟩)).x - 1
      > 1e-4 := by
  have hrt : (Rotor4D.fromPlaneAngle RotationPlane.XY (Real.pi / 2)).inverse.rotate
      ((Rotor4D.fromPlaneAngle RotationPlane.XY (Real.pi / 2)).rotate ⟨1, 0, 0, 0⟩) =
      ⟨2, -1, -1, 0⟩ := by
    rw [rotate_XY_unitX, inverse_XY_pi_div_two, Rotor4D.rotate, toMatrix_XY_inv]
    simp only [Mat4x4.mulVec, Vec4.mk.injEq]
    norm_num
  refine ⟨hrt, ?_⟩
  rw [hrt]
  norm_num

/-- C8: for unit rotors A and B, slerp(A,B,0) rotates every probe
vector exactly like A and slerp(A,B,1) exactly like B (the rotor
returned at t = 1 may be the componentwise negation of B, which
converts to the same matrix). -/
theorem claim8_slerp_endpoints (A B : Rotor4D) (v : Vec4)
    (hA : A.magnitudeSquared = 1) (hB : B.magnitudeSquared = 1) :
    (A.slerp B 0).rotate v = A.rotate v ∧ (A.slerp B 1).rotate v = B.rotate v := by
  constructor
  · rw [Rotor4D.slerp_zero A B hA]
  · rcases Rotor4D.slerp_one A B hB with h | h
    · rw [h]
    · rw [h]
      simp only [Rotor4D.rotate, Rotor4D.toMatrix_neg]

/-- C8 witness: the endpoint agreement evaluated at two concrete unit
rotors and a concrete probe vector. -/
theorem claim8_slerp_endpoints_witness :
    ((Rotor4D.identity.slerp Rotor4D.identity 0).rotate ⟨1, 2, 3, 4⟩ =
        Rotor4D.identity.rotate ⟨1, 2, 3, 4⟩) ∧
    ((Rotor4D.identity.slerp Rotor4D.identity 1).rotate ⟨1, 2, 3, 4⟩ =
        Rotor4D.identity.rotate ⟨1, 2, 3, 4⟩) :=
  claim8_slerp_endpoints Rotor4D.identity Rotor4D.identity ⟨1, 2, 3, 4⟩
    (by norm_num [Rotor4D.magnitudeSquared, Rotor4D.identity])
    (by norm_num [Rotor4D.magnitudeSquared, Rotor4D.identity])

/-- C9 counterexample: the claim says clamp(lo, hi) equals
max(lo, min(hi, self)) even when lo exceeds hi.  With self = 0,
lo = 2, hi = 1 (componentwise) the code's clamp returns (1,1,1,1)
while max(lo, min(hi, self)) is (2,2,2,2). -/
theorem claim9_clamp_counterexample :
    Vec4.clamp ⟨0, 0, 0, 0⟩ ⟨2, 2, 2, 2⟩ ⟨1, 1, 1, 1⟩ = ⟨1, 1, 1, 1⟩ ∧
    Vec4.vmax ⟨2, 2, 2, 2⟩ (Vec4.vmin ⟨1, 1, 1, 1⟩ ⟨0, 0, 0, 0⟩) = ⟨2, 2, 2, 2⟩ ∧
    (⟨1, 1, 1, 1⟩ : Vec4) ≠ ⟨2, 2, 2, 2⟩ := by
  refine ⟨?_, ?_, ?_⟩
  · simp only [Vec4.clamp, Vec4.vmax, Vec4.vmin, Vec4.mk.injEq]
    norm_num [max_def, min_def]
  · simp only [Vec4.vmax, Vec4.vmin, Vec4.mk.injEq]
    norm_num [max_def, min_def]
  · intro hcontra
    have hx := congrArg Vec4.x hcontra
    norm_num at hx

/-- C9 amended: for every vector and every pair of bounds, clamp(lo, hi)
is min(hi, max(lo, self)) componentwise (the code's nesting,
unconditionally); and when lo ≤ hi componentwise this coincides with
the claimed max(lo, min(hi, self)). -/
theorem claim9_clamp_amended (v lo hi : Vec4) :
    Vec4.clamp v lo hi = Vec4.vmin hi (Vec4.vmax lo v) ∧
    ((lo.x ≤ hi.x ∧ lo.y ≤ hi.y ∧ lo.z ≤ hi.z ∧ lo.w ≤ hi.w) →
      Vec4.clamp v lo hi = Vec4.vmax lo (Vec4.vmin hi v)) := by
  constructor
  · simp only [Vec4.clamp, Vec4.vmin, Vec4.vmax, Vec4.mk.injEq]
    exact ⟨by rw [min_comm (max v.x lo.x) hi.x, max_comm v.x lo.x],
           by rw [min_comm (max v.y lo.y) hi.y, max_comm v.y lo.y],
           by rw [min_comm (max v.z lo.z) hi.z, max_comm v.z lo.z],
           by rw [min_comm (max v.w lo.w) hi.w, max_comm v.w lo.w]⟩
  · rintro ⟨h1, h2, h3, h4⟩
    simp only [Vec4.clamp, Vec4.vmin, Vec4.vmax, Vec4.mk.injEq]
    exact ⟨min_max_clamp _ _ _ h1, min_max_clamp _ _ _ h2,
           min_max_clamp _ _ _ h3, min_max_clamp _ _ _ h4⟩

/-- C9 amended witness: the amended statement evaluated at concrete
input with lo > hi for the unconditional clause and at concrete bounds
with lo ≤ hi for the coincidence clause. -/
theorem claim9_clamp_amended_witness :
    Vec4.clamp ⟨0, 0, 0, 0⟩ ⟨2, 2, 2, 2⟩ ⟨1, 1, 1, 1⟩ =
      Vec4.vmin ⟨1, 1, 1, 1⟩ (Vec4.vmax ⟨2, 2, 2, 2⟩ ⟨0, 0, 0, 0⟩) ∧
    Vec4.clamp ⟨5, 5, 5, 5⟩ ⟨0, 0, 0, 0⟩ ⟨1, 1, 1, 1⟩ =
      Vec4.vmax ⟨0, 0, 0, 0⟩ (Vec4.vmin ⟨1, 1, 1, 1⟩ ⟨5, 5, 5, 5⟩) :=
  ⟨(claim9_clamp_amended ⟨0, 0, 0, 0⟩ ⟨2, 2, 2, 2⟩ ⟨1, 1, 1, 1⟩).1,
   (claim9_clamp_amended ⟨5, 5, 5, 5⟩ ⟨0, 0, 0, 0⟩ ⟨1, 1, 1, 1⟩).2 (by norm_num)⟩

/-- C10: the in-place normalize() leaves any zero-magnitude rotor
unchanged rather than producing the identity, and consequently
nlerp(a, -a, 0.5), whose componentwise interpolation is the all-zero
rotor, returns the all-zero (non-unit) rotor for every a. -/
theorem claim10_normalize_zero_nlerp :
    (∀ r : Rotor4D, r.magnitude = 0 → r.normalize = r) ∧
    (∀ a : Rotor4D, a.nlerp (Rotor4D.neg a) 0.5 = (⟨0, 0, 0, 0, 0, 0, 0, 0⟩ : Rotor4D)) := by
  have hz : ∀ r : Rotor4D, r.magnitude = 0 → r.normalize = r := by
    intro r h
    unfold Rotor4D.normalize
    rw [h]
    norm_num
  refine ⟨hz, ?_⟩
  intro a
  have hX : (⟨a.s + ((Rotor4D.neg a).s - a.s) * 0.5, a.xy + ((Rotor4D.neg a).xy - a.xy) * 0.5,
      a.xz + ((Rotor4D.neg a).xz - a.xz) * 0.5, a.yz + ((Rotor4D.neg a).yz - a.yz) * 0.5,
      a.xw + ((Rotor4D.neg a).xw - a.xw) * 0.5, a.yw + ((Rotor4D.neg a).yw - a.yw) * 0.5,
      a.zw + ((Rotor4D.neg a).zw - a.zw) * 0.5,
      a.xyzw + ((Rotor4D.neg a).xyzw - a.xyzw) * 0.5⟩ : Rotor4D) =
      ⟨0, 0, 0, 0, 0, 0, 0, 0⟩ := by
    simp only [Rotor4D.neg, Rotor4D.mk.injEq]
    refine ⟨?_, ?_, ?_, ?_, ?_, ?_, ?_, ?_⟩ <;> ring
  unfold Rotor4D.nlerp
  rw [hX]
  exact hz _ (by simp [Rotor4D.magnitude, Rotor4D.magnitudeSquared])

/-- C10 witness: the zero-magnitude branch evaluated at the all-zero
rotor, and the interpolation evaluated at the identity rotor. -/
theorem claim10_normalize_zero_nlerp_witness :
    Rotor4D.normalize ⟨0, 0, 0, 0, 0, 0, 0, 0⟩ = ⟨0, 0, 0, 0, 0, 0, 0, 0⟩ ∧
    Rotor4D.identity.nlerp (Rotor4D.neg Rotor4D.identity) 0.5 =
      (⟨0, 0, 0, 0, 0, 0, 0, 0⟩ : Rotor4D) :=
  ⟨claim10_normalize_zero_nlerp.1 ⟨0, 0, 0, 0, 0, 0, 0, 0⟩
      (by simp [Rotor4D.magnitude, Rotor4D.magnitudeSquared]),
   claim10_normalize_zero_nlerp.2 Rotor4D.identity⟩

end Vib3
